import Mathlib

/-!
Verification development for the core probing engine of clambin/vizroute:
the ICMP socket multiplexer (`src/ping/ping.go`), the response queue
(`src/ping/queue.go`) and the tracer / hop statistics
(`src/internal/tracer/tracer.go`, `src/internal/tracer/hop.go`).

The Go code is shallowly embedded: pure functions become Lean functions,
stateful code becomes explicit state passing, byte buffers become
`List Nat` (each element < 256 on the inputs of interest), `time.Time`
and `time.Duration` become `Nat` (instants on a single monotone clock),
Go maps become association lists with map semantics, and fallible code
returns `Option`/`Except`.
-/

namespace Vizroute

/-- Abstract model of `net.IP`.  The engine only discriminates between the
nil address, IPv4 addresses (`ip.To4() != nil`) and IPv6 addresses, and
compares addresses for equality; the numeric payload stands for the
address bytes. -/
inductive IP where
  | nil : IP
  | v4 (a : Nat) : IP
  | v6 (a : Nat) : IP
deriving DecidableEq, Repr

/-- Model of `ip.To4() != nil`: true exactly for IPv4 addresses.
(A nil `net.IP` also fails `To4`, so it takes the v6 branch wherever the
code branches on `To4`.) -/
def IP.isV4 : IP → Bool
  | .v4 _ => true
  | _ => false

/-- Association-list lookup, modelling Go map indexing `m[k]`. -/
def alookup {α : Type} : List (Nat × α) → Nat → Option α
  | [], _ => none
  | e :: t, k => if e.1 = k then some e.2 else alookup t k

/-- Association-list key removal, modelling Go `delete(m, k)`. -/
def aerase {α : Type} (l : List (Nat × α)) (k : Nat) : List (Nat × α) :=
  l.filter (fun e => e.1 ≠ k)

/-- Association-list insertion, modelling Go map assignment `m[k] = v`
(overwrites any previous binding of `k`). -/
def ainsert {α : Type} (l : List (Nat × α)) (k : Nat) (v : α) : List (Nat × α) :=
  (k, v) :: aerase l k

/-- Big-endian 16-bit read `binary.BigEndian.Uint16(l[i:i+2])`
(out-of-range bytes read as 0; never exercised on well-formed input). -/
def u16be (l : List Nat) (i : Nat) : Nat :=
  256 * l.getD i 0 + l.getD (i + 1) 0

/-! ## ICMP codec (`src/ping/ping.go` lines 399-442) -/

/-- Model of `parseTimeExceededV4` (ping.go:408-420): requires
`len(data) ≥ ipv4.HeaderLen+8 = 28`, computes `hlen = (data[0]&0x0f)*4`,
requires `len(data) ≥ hlen+8`, and reads id/seq big-endian from bytes
4-5 and 6-7 of `inner = data[hlen:hlen+8]`. -/
def parseTimeExceededV4 (data : List Nat) : Option (Nat × Nat) :=
  if data.length < 20 + 8 then none
  else
    let hlen := (data.getD 0 0 % 16) * 4
    if data.length < hlen + 8 then none
    else
      let inner := (data.drop hlen).take 8
      some (u16be inner 4, u16be inner 6)

/-- Result of `icmp.ParseMessage(58, inner)` as far as
`parseTimeExceededV6` inspects it: an `*icmp.Echo` body carries id and
seq; every other successfully parsed body is treated uniformly by the
fallback branch. -/
inductive Icmp6Body where
  | echo (id seq : Nat) : Icmp6Body
  | other : Icmp6Body
deriving DecidableEq, Repr

/-- Model of `icmp.ParseMessage(58, inner)` from golang.org/x/net/icmp,
restricted to what `parseTimeExceededV6` observes: parsing fails when
fewer than 4 header bytes are present; type bytes 128/129 (ICMPv6 echo
request/reply) parse an `*icmp.Echo` body with ID at bytes 4-5 and Seq
at bytes 6-7 big-endian, requiring at least 8 bytes; types 1-4 have
registered body parsers that require at least 4 body bytes and yield
non-Echo bodies; every other type parses as a raw non-Echo body. -/
def parseMessage58 (inner : List Nat) : Option Icmp6Body :=
  if inner.length < 4 then none
  else if inner.getD 0 0 = 128 ∨ inner.getD 0 0 = 129 then
    if inner.length < 8 then none
    else some (.echo (u16be inner 4) (u16be inner 6))
  else if inner.getD 0 0 = 1 ∨ inner.getD 0 0 = 2 ∨ inner.getD 0 0 = 3 ∨ inner.getD 0 0 = 4 then
    if inner.length < 8 then none else some .other
  else some .other

/-- Model of `parseTimeExceededV6` (ping.go:422-442): requires
`len(data) ≥ ipv6.HeaderLen = 40`, parses `inner = data[40:]` as an
ICMPv6 message; an Echo body yields its id/seq, any other body falls
back to reading bytes 4-5 and 6-7 of `inner` when `len(inner) ≥ 8`. -/
def parseTimeExceededV6 (data : List Nat) : Option (Nat × Nat) :=
  if data.length < 40 then none
  else
    let inner := data.drop 40
    match parseMessage58 inner with
    | none => none
    | some (.echo id seq) => some (id, seq)
    | some .other =>
      if 8 ≤ inner.length then some (u16be inner 4, u16be inner 6) else none

/-- Model of `parseTimeExceeded` (ping.go:401-406): dispatch on the
source address family. -/
def parseTimeExceeded (data : List Nat) (src : IP) : Option (Nat × Nat) :=
  if src.isV4 then parseTimeExceededV4 data else parseTimeExceededV6 data

/-- Modelled from the spec (sec 4.1): an 8-byte inner ICMP Echo header
carrying the given type byte, code 0, a zero checksum and big-endian
id/seq, followed by the quoted payload. -/
def encodeInnerEcho (tp id seq : Nat) (payload : List Nat) : List Nat :=
  [tp, 0, 0, 0, id / 256, id % 256, seq / 256, seq % 256] ++ payload

/-- Modelled from the spec (sec 4.1, IPv4 case): a Time-Exceeded quoted
payload whose first byte encodes version 4 and IHL `ihl` (so the header
occupies `4*ihl` bytes, remaining header bytes zero), followed by the
inner ICMP Echo header (type 8). -/
def encodeTimeExceededV4 (ihl id seq : Nat) (payload : List Nat) : List Nat :=
  ((64 + ihl) :: List.replicate (4 * ihl - 1) 0) ++ encodeInnerEcho 8 id seq payload

/-- Modelled from the spec (sec 4.1, IPv6 case): a Time-Exceeded quoted
payload beginning with the 40-byte original IPv6 header, followed by the
inner ICMPv6 Echo Request (type 128). -/
def encodeTimeExceededV6 (hdr : List Nat) (id seq : Nat) (payload : List Nat) : List Nat :=
  hdr ++ encodeInnerEcho 128 id seq payload

/-! ## Requests, responses and the socket dispatcher (`src/ping/ping.go`) -/

/-- Model of `ping.ResponseType` (ping.go:72-78). -/
inductive ResponseType where
  | echoReply : ResponseType
  | timeExceeded : ResponseType
  | timeout : ResponseType
deriving DecidableEq, Repr

/-- Model of `ping.Request` (ping.go:64-70). -/
structure Request where
  timeSent : Nat
  target : IP
  seq : Nat
  ttl : Nat
deriving DecidableEq, Repr

/-- Model of `ping.Response` (ping.go:43-49); `fromAddr` stands for the
Go field `From` (`from` is reserved in Lean). -/
structure Response where
  fromAddr : IP
  request : Request
  responseType : ResponseType
  latency : Nat
deriving DecidableEq, Repr

/-- The mutable state of a `ping.Socket` that the dispatcher touches:
the instance id `s.id`, the request table `s.outstandingRequests`, and
the delivery FIFO `s.q` (responses queued for `Read`). -/
structure SockState where
  sid : Nat
  table : List (Nat × Request)
  queue : List Response
deriving DecidableEq, Repr

/-- An incoming datagram after `icmp.ParseMessage` classified its body
(ping.go:334-347): an `*icmp.Echo` body with outer id/seq, or an
`*icmp.TimeExceeded` body carrying the quoted bytes `body.Data`;
`src` is the sender address `from`. -/
inductive Packet where
  | echoReply (id seq : Nat) (src : IP) : Packet
  | timeExceeded (data : List Nat) (src : IP) : Packet
deriving DecidableEq, Repr

/-- Source address of a packet. -/
def Packet.src : Packet → IP
  | .echoReply _ _ s => s
  | .timeExceeded _ s => s

/-- The `(respType, msgID, seq)` triple that `readPacket`
(ping.go:326-347) extracts from a packet body; `none` when the inner
Time-Exceeded payload fails to parse. -/
def parsePacketInfo : Packet → Option (ResponseType × Nat × Nat)
  | .echoReply id seq _ => some (.echoReply, id, seq)
  | .timeExceeded data src =>
    (parseTimeExceeded data src).map (fun p => (.timeExceeded, p.1, p.2))

/-- The echoed identifier of a packet: outer id for an EchoReply, inner
id for a TimeExceeded (when its quote parses). -/
def Packet.echoedId (pkt : Packet) : Option Nat :=
  (parsePacketInfo pkt).map (fun x => x.2.1)

/-- Error results of `readPacket` (ping.go:305-369).  `readPackets`
(ping.go:284-303) forwards no response to the dispatcher channel on any
of them: `errIncorrectID` logs and continues, other errors warn and
continue. -/
inductive ReadErr where
  | parseFailed : ReadErr
  | incorrectID : ReadErr
  | noRequest : ReadErr
deriving DecidableEq, Repr

/-- Model of `Socket.readPacket` (ping.go:305-369) after the datagram
has been parsed: reject with `errIncorrectID` when the echoed id is not
`s.id`; look the sequence number up in `s.outstandingRequests` (the
entry is read, not removed) and fail when absent; otherwise build the
Response with `latency = now - req.TimeSent`. -/
def readPacket (st : SockState) (pkt : Packet) (now : Nat) : Except ReadErr Response :=
  match parsePacketInfo pkt with
  | none => .error .parseFailed
  | some (tp, msgID, seq) =>
    if msgID ≠ st.sid then .error .incorrectID
    else
      match alookup st.table seq with
      | none => .error .noRequest
      | some req =>
        .ok { fromAddr := pkt.src, request := req, responseType := tp,
              latency := now - req.timeSent }

/-- Model of the `resp := <-ch` arm of `Socket.Serve` (ping.go:268-278):
if the response's seq has no outstanding request, drop it; otherwise
push it onto the delivery queue.  The request table is not modified in
either branch. -/
def serveStep (st : SockState) (resp : Response) : SockState :=
  if (alookup st.table resp.request.seq).isSome then
    { st with queue := st.queue ++ [resp] }
  else st

/-- One incoming datagram through the dispatcher: `readPacket` in the
per-family reader (errors forward nothing to the channel), then the
`Serve` correlation step. -/
def dispatchPacket (st : SockState) (pkt : Packet) (now : Nat) : SockState :=
  match readPacket st pkt now with
  | .error _ => st
  | .ok resp => serveStep st resp

/-- Model of `Socket.Send`'s request-table update (ping.go:226-231):
after the frame is written, `s.outstandingRequests[seq]` is assigned a
fresh Request carrying the caller-provided target, ttl and seq. -/
def sendRecord (table : List (Nat × Request)) (target : IP) (seq ttl now : Nat) :
    List (Nat × Request) :=
  ainsert table seq { timeSent := now, target := target, seq := seq, ttl := ttl }

/-- The Timeout response that `Socket.timeout` (ping.go:372-386) queues
for an expired request: `ResponseType: ResponseTimeout, Request: req`,
zero From and Latency. -/
def timeoutResponse (req : Request) : Response :=
  { fromAddr := .nil, request := req, responseType := .timeout, latency := 0 }

/-- One entry of the sweep loop in `Socket.timeout`: when
`now - req.TimeSent > timeout`, queue a Timeout response and delete the
entry from the request table. -/
def sweepEntry (timeoutD now : Nat) (st : SockState) (e : Nat × Request) : SockState :=
  if timeoutD < now - e.2.timeSent then
    { st with queue := st.queue ++ [timeoutResponse e.2],
              table := aerase st.table e.1 }
  else st

/-- Model of `Socket.timeout` (ping.go:372-386): sweep every entry of
the request table, expiring the stale ones. -/
def timeoutSweep (timeoutD now : Nat) (st : SockState) : SockState :=
  st.table.foldl (sweepEntry timeoutD now) st

/-- The three ways `q.PopWait(subCtx)` inside `Socket.Read`
(ping.go:237-246) can finish: a queued response, expiry of the
`read_timeout` deadline that `Read` put on `subCtx`, or cancellation of
the parent `ctx`. -/
inductive PopOutcome where
  | ok (r : Response) : PopOutcome
  | deadlineExceeded : PopOutcome
  | cancelled : PopOutcome
deriving DecidableEq, Repr

/-- The error values `Socket.Read` can return (ping.go:29-32, 243):
only `ErrTimeout`. -/
inductive PingErr where
  | errTimeout : PingErr
deriving DecidableEq, Repr

/-- Model of `Socket.Read` (ping.go:237-246): a popped response is
returned as-is; any `PopWait` error — deadline expiry of the
read-timeout sub-context or cancellation of the caller's context — is
mapped to the single error `ErrTimeout`. -/
def socketRead : PopOutcome → Except PingErr Response
  | .ok r => .ok r
  | .deadlineExceeded => .error .errTimeout
  | .cancelled => .error .errTimeout

/-! ## Hop statistics (`src/internal/tracer/hop.go`) -/

/-- Model of `tracer.HopStats` (hop.go:11-21).  `sentTimes` is the
`map[int]time.Time` of send instants keyed by seq. -/
structure HopStats where
  sentTimes : List (Nat × Nat) := []
  addr : String := ""
  ip : IP := .nil
  RTTs : List Nat := []
  sent : Nat := 0
  received : Nat := 0
  TTL : Nat := 0
deriving DecidableEq, Repr

/-- Model of `HopStats.recordAddr` (hop.go:92-101): unconditionally
store the supplied address, then overwrite `addr` with the first
reverse-lookup result (or the empty string when the lookup fails or
returns nothing).  `lookupAddr` abstracts `net.LookupAddr`. -/
def HopStats.recordAddr (lookupAddr : IP → List String) (h : HopStats) (ip : IP) : HopStats :=
  { h with ip := ip, addr := (lookupAddr ip).headD "" }

/-- Model of `HopStats.recordSend` (hop.go:103-111): increment `sent`
and record the send instant under `seq`. -/
def HopStats.recordSend (h : HopStats) (now seq : Nat) : HopStats :=
  { h with sent := h.sent + 1, sentTimes := ainsert h.sentTimes seq now }

/-- Model of `HopStats.recordRecv` (hop.go:113-121): increment
`received`; when a send instant is recorded for `seq`, append the
round-trip time and delete the entry. -/
def HopStats.recordRecv (h : HopStats) (now seq : Nat) : HopStats :=
  match alookup h.sentTimes seq with
  | some t =>
    { h with received := h.received + 1, RTTs := h.RTTs ++ [now - t],
             sentTimes := aerase h.sentTimes seq }
  | none => { h with received := h.received + 1 }

/-- Model of `HopStats.Reset` (hop.go:83-90): zero the counters, clear
the samples and the send-instant map. -/
def HopStats.Reset (h : HopStats) : HopStats :=
  { h with sent := 0, received := 0, RTTs := [], sentTimes := [] }

/-- Model of `HopStats.Loss` (hop.go:43-50).  The Go method computes in
float64; it is modelled in exact rational arithmetic. -/
def HopStats.Loss (h : HopStats) : ℚ :=
  if h.sent = 0 then 0 else 1 - (h.received : ℚ) / (h.sent : ℚ)

/-- Model of `HopStats.AvgRTT` (hop.go:53-64): 0 on no samples, else
the sum of the samples divided by their count (`time.Duration` integer
division). -/
def HopStats.AvgRTT (h : HopStats) : Nat :=
  if h.RTTs.length = 0 then 0 else h.RTTs.sum / h.RTTs.length

/-- Model of `HopStats.MedianRTT` (hop.go:67-81).  The Go method sorts
`h.RTTs` in place with `slices.Sort` before indexing, so it both
returns the median and mutates the receiver: the pair is (returned
value, receiver after the call). -/
def HopStats.MedianRTT (h : HopStats) : Nat × HopStats :=
  let n := h.RTTs.length
  let sorted := h.RTTs.mergeSort (fun a b => decide (a ≤ b))
  let value :=
    if n = 0 then 0
    else if n % 2 = 1 then sorted.getD (n / 2) 0
    else (sorted.getD (n / 2 - 1) 0 + sorted.getD (n / 2) 0) / 2
  (value, if n = 0 then h else { h with RTTs := sorted })

/-- An operation applied to one `HopStats` during a run. -/
inductive HopOp where
  | send (now seq : Nat) : HopOp
  | recv (now seq : Nat) : HopOp
  | reset : HopOp
deriving DecidableEq, Repr

/-- Apply one operation. -/
def applyHopOp (h : HopStats) : HopOp → HopStats
  | .send now seq => h.recordSend now seq
  | .recv now seq => h.recordRecv now seq
  | .reset => h.Reset

/-- Apply a sequence of operations in order. -/
def runHopOps (h : HopStats) (ops : List HopOp) : HopStats :=
  ops.foldl applyHopOp h

/-! ## Spec-side definitions of the statistics (spec sec 4.7 / sec 8 item 6),
for comparison with the code-derived accessors. -/

/-- Spec formula for loss: `1 - r/k` when `k > 0`, else 0. -/
def specLoss (sent received : Nat) : ℚ :=
  if sent = 0 then 0 else 1 - (received : ℚ) / (sent : ℚ)

/-- Spec formula for the average: the mean of the sample multiset
(integer division of `time.Duration` values), 0 when empty. -/
def specMean (m : Multiset Nat) : Nat :=
  if m.card = 0 then 0 else m.sum / m.card

/-- The order statistics of a sample multiset: its elements arranged in
ascending order. -/
def orderStats (m : Multiset Nat) : List Nat :=
  m.sort (· ≤ ·)

/-- Spec formula for the median: the middle order statistic for an odd
sample count, the mean of the two middle order statistics for an even
count, 0 when empty. -/
def specMedian (m : Multiset Nat) : Nat :=
  let l := orderStats m
  let n := l.length
  if n = 0 then 0
  else if n % 2 = 1 then l.getD (n / 2) 0
  else (l.getD (n / 2 - 1) 0 + l.getD (n / 2) 0) / 2

/-! ## Tracer (`src/internal/tracer/tracer.go`) -/

/-- Outcome of `Tracer.Run` (tracer.go:71-112): the resolve error, a
probe-send error at some TTL, or `completed` — the loop finished
(either the target was seen or `maxHops` probes were sent) and `Run`
blocks on `<-ctx.Done()`, returning nil after cancellation. -/
inductive RunOutcome where
  | resolveFailed : RunOutcome
  | sendFailed (ttl : Nat) : RunOutcome
  | completed : RunOutcome
deriving DecidableEq, Repr

/-- The discovery loop of `Tracer.Run` (tracer.go:95-108), iterating
`ttl = 1, …, maxHops` with `fuel = maxHops - ttl + 1` iterations left.
`reached ttl` abstracts the check at the top of iteration `ttl` that
the last hop recorded by the concurrent reader equals the resolved
target; `sendErr ttl` abstracts `pingTarget` failing at that TTL, which
aborts `Run` with the error. -/
def discoveryLoop (reached sendErr : Nat → Bool) : Nat → Nat → RunOutcome
  | _, 0 => .completed
  | ttl, fuel + 1 =>
    if reached ttl then .completed
    else if sendErr ttl then .sendFailed ttl
    else discoveryLoop reached sendErr (ttl + 1) fuel

/-- Model of `Tracer.Run` (tracer.go:71-112): resolve the target (an
error is returned to the caller), then run the discovery loop from
TTL 1; on loop exit `Run` waits for context cancellation and returns
nil.  No other return path exists. -/
def tracerRun (resolveOk : Bool) (reached sendErr : Nat → Bool) (maxHops : Nat) : RunOutcome :=
  if resolveOk then discoveryLoop reached sendErr 1 maxHops else .resolveFailed

/-- The sequence number used by `Tracer.pingTarget` (tracer.go:117):
the literal constant 1, for every discovery probe. -/
def pingTargetSeq : Nat := 1

/-- A call to `Socket.Send` as issued by the tracer. -/
structure SendCall where
  target : IP
  seq : Nat
  ttl : Nat
deriving DecidableEq, Repr

/-- Model of `Tracer.pingTarget` (tracer.go:115-134): build a fresh
`HopStats` for the TTL, record the send on it under seq
`pingTargetSeq`, and issue `Send(dest, pingTargetSeq, ttl, payload)`.
(The random `id` computed on line 116 is only logged, never sent.) -/
def pingTarget (now : Nat) (dest : IP) (ttl : Nat) : HopStats × SendCall :=
  let h : HopStats := { TTL := ttl, sentTimes := [] }
  (h.recordSend now pingTargetSeq, { target := dest, seq := pingTargetSeq, ttl := ttl })

/-- The sequence number used by `Tracer.startHopPinger`
(tracer.go:182-197) on its k-th tick: the pinger's local counter starts
at 0 and is incremented before each send, so tick k sends seq k —
independently for every hop. -/
def hopPingerSeq (tick : Nat) : Nat := tick

/-! ## Theorems -/

/-- Claim C1: contrary to the claim (and to the comment on ping.go:275,
"queue for delivery by Receive and remove the outstanding packet"),
the dispatcher never removes a correlated request from
`outstandingRequests`; processing the very same EchoReply twice, with
no intervening send, delivers two responses and leaves the request in
the table. -/
theorem serve_duplicate_delivery :
    let req : Request := { timeSent := 100, target := .v4 9, seq := 1, ttl := 3 }
    let st0 : SockState := { sid := 7, table := [(1, req)], queue := [] }
    let pkt : Packet := .echoReply 7 1 (.v4 5)
    let st1 := dispatchPacket st0 pkt 150
    let st2 := dispatchPacket st1 pkt 160
    st1.queue.length = 1 ∧ st2.queue.length = 2 ∧ alookup st2.table 1 = some req := by
  decide

/-- Claim C2 counterexample: with the target resolved, every send
succeeding and the target never reached within `maxHops = 3`,
`Tracer.Run` completes its loop and returns nil after context
cancellation — no `MaxTtlExceeded` error is returned to the caller. -/
theorem run_unreached_returns_ok :
    tracerRun true (fun _ => false) (fun _ => false) 3 = .completed := by
  decide

/-- Helper for the discovery loop: when no send fails, the loop always
completes. -/
theorem discoveryLoop_no_sendErr (reached : Nat → Bool) :
    ∀ fuel ttl, discoveryLoop reached (fun _ => false) ttl fuel = .completed := by
  intro fuel
  induction fuel with
  | zero => intro ttl; rfl
  | succ n ih =>
    intro ttl
    by_cases hr : reached ttl
    · simp [discoveryLoop, hr]
    · simp [discoveryLoop, hr, ih]

/-- Helper: every run of the discovery loop either completes or stops
with the send error of some failing TTL. -/
theorem discoveryLoop_cases (reached sendErr : Nat → Bool) :
    ∀ fuel ttl, discoveryLoop reached sendErr ttl fuel = .completed ∨
      ∃ t, sendErr t = true ∧ discoveryLoop reached sendErr ttl fuel = .sendFailed t := by
  intro fuel
  induction fuel with
  | zero => intro ttl; exact Or.inl rfl
  | succ n ih =>
    intro ttl
    by_cases hr : reached ttl
    · exact Or.inl (by simp [discoveryLoop, hr])
    · by_cases hs : sendErr ttl
      · exact Or.inr ⟨ttl, hs, by simp [discoveryLoop, hr, hs]⟩
      · simpa [discoveryLoop, hr, hs] using ih (ttl + 1)

/-- Claim C2 amended: `Tracer.Run` surfaces the resolve error and any probe
send error; in every other case — whether or not the target was
reached within `maxHops` — the loop completes and Run returns nil
after cancellation.  No `MaxTtlExceeded` outcome exists. -/
theorem run_outcomes (reached sendErr : Nat → Bool) (maxHops : Nat) :
    tracerRun false reached sendErr maxHops = .resolveFailed ∧
    tracerRun true reached (fun _ => false) maxHops = .completed ∧
    (tracerRun true reached sendErr maxHops = .completed ∨
      ∃ t, sendErr t = true ∧ tracerRun true reached sendErr maxHops = .sendFailed t) := by
  refine ⟨rfl, ?_, ?_⟩
  · simpa [tracerRun] using discoveryLoop_no_sendErr reached maxHops 1
  · simpa [tracerRun] using discoveryLoop_cases reached sendErr maxHops 1

/-- Claim C3 counterexample: when the `read_timeout` deadline expires,
`Socket.Read` returns the error `ErrTimeout` — not a Response of kind
Timeout — and cancellation of the caller's context produces the very
same result, so the two are indistinguishable. -/
theorem read_timeout_is_error :
    socketRead .deadlineExceeded = .error .errTimeout ∧
    socketRead .cancelled = socketRead .deadlineExceeded :=
  ⟨rfl, rfl⟩

/-- Helper: every response the timeout sweep adds to the delivery queue
is of kind Timeout. -/
theorem sweep_queue_mem (timeoutD now : Nat) :
    ∀ (l : List (Nat × Request)) (st : SockState) (r : Response),
      r ∈ (l.foldl (sweepEntry timeoutD now) st).queue →
        r ∈ st.queue ∨ r.responseType = .timeout := by
  intro l
  induction l with
  | nil => exact fun st r h => Or.inl h
  | cons e t ih =>
    intro st r h
    rcases ih (sweepEntry timeoutD now st e) r h with h1 | h2
    · unfold sweepEntry at h1
      by_cases hc : timeoutD < now - e.2.timeSent
      · simp only [hc, if_true] at h1
        rcases List.mem_append.mp h1 with hq | hr
        · exact Or.inl hq
        · simp only [List.mem_singleton] at hr
          exact Or.inr (by rw [hr]; rfl)
      · simp only [hc, if_false] at h1
        exact Or.inl h1
    · exact Or.inr h2

/-- Claim C3 amended: `Socket.Read` passes queued responses through
unchanged and maps both deadline expiry and context cancellation to
the single error `ErrTimeout`; Timeout-kind Responses are produced
only by the timeout sweeper for expired in-flight requests and reach
the caller through the queue. -/
theorem read_error_semantics :
    (∀ r, socketRead (.ok r) = .ok r) ∧
    socketRead .deadlineExceeded = .error .errTimeout ∧
    socketRead .cancelled = .error .errTimeout ∧
    (∀ timeoutD now st r, r ∈ (timeoutSweep timeoutD now st).queue →
      r ∈ st.queue ∨ r.responseType = .timeout) :=
  ⟨fun _ => rfl, rfl, rfl, fun timeoutD now st r h => sweep_queue_mem timeoutD now st.table st r h⟩

/-- Witness for C3 amended: a concrete sweep of one expired request
yields exactly a Timeout-kind response. -/
theorem read_error_semantics_witness :
    timeoutResponse { timeSent := 0, target := .v4 1, seq := 2, ttl := 1 } ∈
        (⟨1, [(2, { timeSent := 0, target := .v4 1, seq := 2, ttl := 1 })], []⟩ : SockState).queue ∨
      (timeoutResponse { timeSent := 0, target := .v4 1, seq := 2, ttl := 1 }).responseType = .timeout :=
  read_error_semantics.2.2.2 1 10
    ⟨1, [(2, { timeSent := 0, target := .v4 1, seq := 2, ttl := 1 })], []⟩
    (timeoutResponse { timeSent := 0, target := .v4 1, seq := 2, ttl := 1 }) (by decide)

/-- Claim C4 counterexample: `recordAddr` does not preserve a previously set
non-empty address — a later call overwrites it with the new address. -/
theorem recordAddr_overwrites :
    let h0 : HopStats := { ip := .v4 1 }
    let h1 := h0.recordAddr (fun _ => []) (.v4 2)
    h1.ip = .v4 2 ∧ h1.ip ≠ .v4 1 := by
  decide

/-- Claim C4 amended: after any `recordAddr(ip)` call the stored address
equals `ip`, the argument of the most recent call — every call
overwrites, with no first-non-empty guard — and `addr` is overwritten
with the reverse lookup of that address (empty on lookup failure). -/
theorem recordAddr_sets_latest (lookupAddr : IP → List String) (h : HopStats) (ip : IP) :
    (h.recordAddr lookupAddr ip).ip = ip ∧
    (h.recordAddr lookupAddr ip).addr = (lookupAddr ip).headD "" :=
  ⟨rfl, rfl⟩

/-- Claim C5 counterexample: sequence numbers are not endpoint-assigned — the
discovery probes for TTL 1 and TTL 2 both carry seq 1, a hop pinger's
first tick also carries seq 1, and a second `Send` with the same seq
overwrites the first probe's still-in-flight request in the table. -/
theorem seq_collision :
    (pingTarget 0 (.v4 1) 1).2.seq = (pingTarget 0 (.v4 1) 2).2.seq ∧
    (pingTarget 0 (.v4 1) 1).2.seq = hopPingerSeq 1 ∧
    alookup (sendRecord (sendRecord [] (.v4 1) 1 1 0) (.v4 2) 1 2 5) 1 =
      some { timeSent := 5, target := .v4 2, seq := 1, ttl := 2 } := by
  decide

/-- Claim C5 amended: sequence numbers are chosen by the callers, not the
endpoint.  `pingTarget` uses the constant seq 1 for every discovery
probe, each per-hop pinger independently counts 1, 2, 3, …, and
`Send` records whatever seq the caller passes, overwriting any
in-flight request with the same seq; concurrently in-flight probes can
therefore carry equal sequence numbers. -/
theorem seq_caller_chosen :
    pingTargetSeq = 1 ∧
    (∀ now dest ttl, (pingTarget now dest ttl).2.seq = 1 ∧ (pingTarget now dest ttl).1.sent = 1) ∧
    (∀ k, hopPingerSeq k = k) ∧
    (∀ table target seq ttl now,
      alookup (sendRecord table target seq ttl now) seq =
        some { timeSent := now, target := target, seq := seq, ttl := ttl }) := by
  refine ⟨rfl, fun now dest ttl => ⟨rfl, rfl⟩, fun k => rfl, ?_⟩
  intro table target seq ttl now
  simp [sendRecord, ainsert, alookup]

/-- Claim C6: the Time-Exceeded inner-extraction round-trip.  For every
16-bit (id, seq) encoded into an inner Echo header per spec sec 4.1 —
IPv4 with any legal IHL (5..15 words) and any quoted tail, IPv6 after
any 40-byte original header — the decoder recovers exactly (id, seq),
reading both fields big-endian. -/
theorem parseTimeExceeded_roundtrip (id seq ihl : Nat) (payload hdr : List Nat)
    (hid : id < 65536) (hseq : seq < 65536) (hihl5 : 5 ≤ ihl) (hihl15 : ihl ≤ 15)
    (hhdr : hdr.length = 40) :
    parseTimeExceeded (encodeTimeExceededV4 ihl id seq payload) (.v4 0) = some (id, seq) ∧
    parseTimeExceeded (encodeTimeExceededV6 hdr id seq payload) (.v6 0) = some (id, seq) := by
  constructor
  · show parseTimeExceededV4 (encodeTimeExceededV4 ihl id seq payload) = some (id, seq)
    have hpre : ((64 + ihl) :: List.replicate (4 * ihl - 1) 0).length = (64 + ihl) % 16 * 4 := by
      simp only [List.length_cons, List.length_replicate]
      omega
    have hlen : (encodeTimeExceededV4 ihl id seq payload).length
        = 4 * ihl + 8 + payload.length := by
      simp only [encodeTimeExceededV4, encodeInnerEcho, List.length_append, List.length_cons,
        List.length_replicate, List.length_nil]
      omega
    have hdrop : (encodeTimeExceededV4 ihl id seq payload).drop ((64 + ihl) % 16 * 4)
        = encodeInnerEcho 8 id seq payload := by
      rw [encodeTimeExceededV4, List.drop_left' hpre]
    have htake : (encodeInnerEcho 8 id seq payload).take 8
        = [8, 0, 0, 0, id / 256, id % 256, seq / 256, seq % 256] := by
      rw [encodeInnerEcho, List.take_left' (by simp)]
    rw [parseTimeExceededV4]
    rw [if_neg (by omega)]
    have h0 : (encodeTimeExceededV4 ihl id seq payload).getD 0 0 = 64 + ihl := rfl
    simp only [h0, hdrop, htake]
    rw [if_neg (by omega)]
    simp only [u16be, List.getD_cons_succ, List.getD_cons_zero]
    have : 256 * (id / 256) + id % 256 = id := by omega
    rw [this]
    have : 256 * (seq / 256) + seq % 256 = seq := by omega
    rw [this]
  · show parseTimeExceededV6 (encodeTimeExceededV6 hdr id seq payload) = some (id, seq)
    have hlen : (encodeTimeExceededV6 hdr id seq payload).length
        = 48 + payload.length := by
      simp only [encodeTimeExceededV6, encodeInnerEcho, List.length_append, List.length_cons,
        List.length_nil]
      omega
    have hdrop : (encodeTimeExceededV6 hdr id seq payload).drop 40
        = encodeInnerEcho 128 id seq payload := by
      rw [encodeTimeExceededV6, List.drop_left' hhdr]
    have hinlen : (encodeInnerEcho 128 id seq payload).length = 8 + payload.length := by
      simp only [encodeInnerEcho, List.length_append, List.length_cons, List.length_nil]
    rw [parseTimeExceededV6]
    rw [if_neg (by omega)]
    simp only [hdrop]
    rw [parseMessage58]
    rw [if_neg (by omega)]
    have h0 : (encodeInnerEcho 128 id seq payload).getD 0 0 = 128 := rfl
    rw [h0]
    rw [if_pos (Or.inl rfl)]
    rw [if_neg (by omega)]
    simp only [encodeInnerEcho, u16be, List.cons_append, List.getD_cons_succ,
      List.getD_cons_zero]
    have h1 : 256 * (id / 256) + id % 256 = id := by omega
    have h2 : 256 * (seq / 256) + seq % 256 = seq := by omega
    rw [h1, h2]

/-- Witness for C6: the literal scenario S6 of the spec — IHL=5, inner
id 0x1234 and seq 0x5678 — decodes to (0x1234, 0x5678), for both
families. -/
theorem parseTimeExceeded_roundtrip_witness :
    parseTimeExceeded (encodeTimeExceededV4 5 4660 22136 (List.replicate 48 0)) (.v4 0)
        = some (4660, 22136) ∧
    parseTimeExceeded (encodeTimeExceededV6 (List.replicate 40 0) 4660 22136 []) (.v6 0)
        = some (4660, 22136) :=
  parseTimeExceeded_roundtrip 4660 22136 5 (List.replicate 48 0) (List.replicate 40 0)
    (by decide) (by decide) (by decide) (by decide) (by decide)

/-- Claim C7: instance isolation.  A packet whose echoed identifier (outer id
for EchoReply, inner id for TimeExceeded) is not the socket's instance
id changes nothing: the dispatcher delivers no response and consumes no
request — for every request table, including ones holding an in-flight
request with the packet's seq — and `readPacket` rejects the packet
with `errIncorrectID` whenever its body parsed. -/
theorem instance_isolation (st : SockState) (pkt : Packet) (now : Nat)
    (h : pkt.echoedId ≠ some st.sid) :
    dispatchPacket st pkt now = st ∧
    (∀ tp mid sq, parsePacketInfo pkt = some (tp, mid, sq) →
      readPacket st pkt now = .error .incorrectID) := by
  cases hp : parsePacketInfo pkt with
  | none =>
    constructor
    · simp [dispatchPacket, readPacket, hp]
    · intro tp mid sq hcontra
      cases hcontra
  | some x =>
    obtain ⟨tp, mid, sq⟩ := x
    have hmid : mid ≠ st.sid := by
      intro e
      exact h (by simp [Packet.echoedId, hp, e])
    constructor
    · simp [dispatchPacket, readPacket, hp, hmid]
    · intro _ _ _ _
      simp [readPacket, hp, hmid]

/-- Witness for C7: a socket with instance id 7 and an in-flight
request at seq 1 ignores an EchoReply carrying id 8 and that same
seq 1. -/
theorem instance_isolation_witness :
    dispatchPacket
        ⟨7, [(1, { timeSent := 0, target := .v4 9, seq := 1, ttl := 1 })], []⟩
        (.echoReply 8 1 (.v4 5)) 3 =
      ⟨7, [(1, { timeSent := 0, target := .v4 9, seq := 1, ttl := 1 })], []⟩ ∧
    (∀ tp mid sq,
      parsePacketInfo (.echoReply 8 1 (.v4 5)) = some (tp, mid, sq) →
      readPacket
          ⟨7, [(1, { timeSent := 0, target := .v4 9, seq := 1, ttl := 1 })], []⟩
          (.echoReply 8 1 (.v4 5)) 3 = .error .incorrectID) :=
  instance_isolation
    ⟨7, [(1, { timeSent := 0, target := .v4 9, seq := 1, ttl := 1 })], []⟩
    (.echoReply 8 1 (.v4 5)) 3 (by decide)

/-- Claim C8 counterexample: `received ≤ sent` is not an invariant of the
`HopStats` operations — one recorded send followed by two recorded
receptions of the same seq (reachable, since the dispatcher never
removes a delivered request, so a duplicated reply is delivered twice
and `handleResponse` records each) leaves received = 2 > sent = 1. -/
theorem received_exceeds_sent :
    let h0 : HopStats := { TTL := 1 }
    let hf := runHopOps h0 [.send 0 1, .recv 1 1, .recv 2 1]
    hf.sent = 1 ∧ hf.received = 2 ∧ ¬hf.received ≤ hf.sent := by
  decide

/-- Helper: every operation preserves `len(RTTs) ≤ received`. -/
theorem applyHopOp_rtts (h : HopStats) (op : HopOp)
    (hi : h.RTTs.length ≤ h.received) :
    (applyHopOp h op).RTTs.length ≤ (applyHopOp h op).received := by
  cases op with
  | send now seq => simpa [applyHopOp, HopStats.recordSend] using hi
  | recv now seq =>
    simp only [applyHopOp, HopStats.recordRecv]
    cases hl : alookup h.sentTimes seq with
    | some t =>
      simp only [hl, List.length_append, List.length_cons, List.length_nil]
      omega
    | none =>
      simp only [hl]
      omega
  | reset => simp [applyHopOp, HopStats.Reset]

/-- Helper: every operation other than Reset leaves `sent` and
`received` non-decreasing. -/
theorem applyHopOp_counts (h : HopStats) (op : HopOp) (hop : op ≠ .reset) :
    h.sent ≤ (applyHopOp h op).sent ∧ h.received ≤ (applyHopOp h op).received := by
  cases op with
  | send now seq =>
    simp only [applyHopOp, HopStats.recordSend]
    omega
  | recv now seq =>
    simp only [applyHopOp, HopStats.recordRecv]
    cases hl : alookup h.sentTimes seq with
    | some t => simp only [hl]; omega
    | none => simp only [hl]; omega
  | reset => exact absurd rfl hop

/-- Claim C8 amended: over every interleaving of the `HopStats` operations,
`len(RTTs) ≤ received` holds at every observable moment, and between
Resets both `sent` and `received` are non-decreasing; `received ≤ sent`
is not maintained (see the counterexample), because `recordRecv`
increments `received` unconditionally and duplicate correlated
responses are deliverable. -/
theorem hop_stats_monotone (h : HopStats) (ops : List HopOp) :
    (h.RTTs.length ≤ h.received →
      (runHopOps h ops).RTTs.length ≤ (runHopOps h ops).received) ∧
    (HopOp.reset ∉ ops →
      h.sent ≤ (runHopOps h ops).sent ∧ h.received ≤ (runHopOps h ops).received) := by
  induction ops generalizing h with
  | nil => exact ⟨fun hi => hi, fun _ => ⟨le_refl _, le_refl _⟩⟩
  | cons op t ih =>
    have hrun : runHopOps h (op :: t) = runHopOps (applyHopOp h op) t := rfl
    constructor
    · intro hi
      rw [hrun]
      exact (ih (applyHopOp h op)).1 (applyHopOp_rtts h op hi)
    · intro hmem
      have hop : op ≠ .reset := fun e => hmem (by rw [e]; exact List.mem_cons_self _ _)
      have h1 := applyHopOp_counts h op hop
      have h2 := (ih (applyHopOp h op)).2 (fun hm => hmem (List.mem_cons_of_mem _ hm))
      rw [hrun]
      exact ⟨le_trans h1.1 h2.1, le_trans h1.2 h2.2⟩

/-- Witness for C8 amended: a concrete reset-free run of two sends and
one reception. -/
theorem hop_stats_monotone_witness :
    ((runHopOps { TTL := 2 } [.send 0 1, .send 1 2, .recv 3 1]).RTTs.length ≤
      (runHopOps { TTL := 2 } [.send 0 1, .send 1 2, .recv 3 1]).received) ∧
    ((HopStats.sent { TTL := 2 } ≤
        (runHopOps { TTL := 2 } [.send 0 1, .send 1 2, .recv 3 1]).sent) ∧
      (HopStats.received { TTL := 2 } ≤
        (runHopOps { TTL := 2 } [.send 0 1, .send 1 2, .recv 3 1]).received)) :=
  ⟨(hop_stats_monotone { TTL := 2 } [.send 0 1, .send 1 2, .recv 3 1]).1 (by decide),
    (hop_stats_monotone { TTL := 2 } [.send 0 1, .send 1 2, .recv 3 1]).2 (by decide)⟩

/-- Helper: the in-place sort that `MedianRTT` performs produces the
same list as sorting the sample multiset — the ascending arrangement of
the samples. -/
theorem mergeSort_eq_orderStats (l : List Nat) :
    l.mergeSort (fun a b => decide (a ≤ b)) = orderStats (l : Multiset Nat) := by
  apply List.eq_of_perm_of_sorted (r := (· ≤ ·))
  · exact (List.mergeSort_perm l _).trans
      (Multiset.coe_eq_coe.mp (Multiset.sort_eq (· ≤ ·) (l : Multiset Nat)).symm)
  · exact List.sorted_mergeSort' l
  · exact Multiset.sort_sorted (· ≤ ·) (l : Multiset Nat)

/-- Claim C9: the accessor semantics.  With k sends, r receptions and sample
multiset R: Loss is `1 − r/k` for k > 0 and 0 for k = 0 (float64
modelled as exact rationals); AvgRTT is the mean of R (integer
`time.Duration` division) and 0 when R is empty; MedianRTT returns the
middle order statistic of R for odd |R|, the mean of the two middle
order statistics for even |R|, and 0 when R is empty. -/
theorem loss_rtt_semantics (h : HopStats) :
    h.Loss = specLoss h.sent h.received ∧
    h.AvgRTT = specMean (h.RTTs : Multiset Nat) ∧
    (h.MedianRTT).1 = specMedian (h.RTTs : Multiset Nat) := by
  refine ⟨rfl, ?_, ?_⟩
  · simp [HopStats.AvgRTT, specMean]
  · have hl : (orderStats (h.RTTs : Multiset Nat)).length = h.RTTs.length := by
      simp [orderStats, Multiset.length_sort]
    simp only [HopStats.MedianRTT, specMedian, mergeSort_eq_orderStats, hl]

/-- Claim C10: the accessor `MedianRTT` is not read-only — it sorts the stored RTT sample
slice in place.  After the call the retained samples are the same
multiset rearranged in ascending order (so the reply-arrival order is
no longer observable), while the counters and address are untouched. -/
theorem medianRTT_sorts_in_place (h : HopStats) :
    (h.MedianRTT).2.RTTs.Perm h.RTTs ∧
    (h.MedianRTT).2.RTTs.Sorted (· ≤ ·) ∧
    (h.MedianRTT).2.sent = h.sent ∧ (h.MedianRTT).2.received = h.received ∧
    (h.MedianRTT).2.ip = h.ip ∧ (h.MedianRTT).2.TTL = h.TTL := by
  by_cases h0 : h.RTTs.length = 0
  · have hnil : h.RTTs = [] := List.length_eq_zero.mp h0
    have hsnd : (h.MedianRTT).2 = h := by
      simp [HopStats.MedianRTT, h0]
    refine ⟨?_, ?_, ?_, ?_, ?_, ?_⟩ <;> rw [hsnd]
    rw [hnil]
    exact List.sorted_nil
  · have hsnd : (h.MedianRTT).2 =
        { h with RTTs := h.RTTs.mergeSort (fun a b => decide (a ≤ b)) } := by
      simp [HopStats.MedianRTT, h0]
    refine ⟨?_, ?_, ?_, ?_, ?_, ?_⟩ <;> rw [hsnd]
    · exact List.mergeSort_perm h.RTTs _
    · exact List.sorted_mergeSort' h.RTTs

end Vizroute
